import Mathlib

/-!
Shallow embedding of `src/app.py` (Simple Face Recognition Test App).

The numeric type of descriptors is a parameter `K` (a linear ordered field
with a floor, instantiated at `ℚ` for executable witnesses and at `ℝ` for
the concrete cosine-similarity scorer).  Python float literals `0.6`,
`0.75`, `0.8`, `0.85` are denoted by the exact constants `3/5`, `3/4`,
`4/5`, `17/20`.

External collaborators (the OpenCV detector, the feature extractor, the
image codec) are passed as function parameters `detect`, `extract`,
`decode`, exactly where `app.py` calls out to them.  The workflow code
(`register_face`, `recognize_face`, `check_face_similarity`, `delete_face`,
`register_multiple`) is translated statement by statement from the source;
the similarity scorer used by the workflows is abstracted as a parameter
`sim : List K → List K → K` (`compare_faces` without its threshold logic),
and the concrete scorer of `app.py` (`compare_faces`, cosine of
L2-normalized vectors) is embedded separately over `ℝ`.

Quotation marks that `app.py` puts around names inside its user-facing
message strings are elided from the modelled messages; no claim depends
on them.
-/

namespace FaceApp

/-- One entry of `self.known_faces`: the dict stored per registered name by
`register_face` (`features` = averaged primary descriptor, `all_features` =
the three raw sample descriptors, plus `registered_at` and `image_count`). -/
structure FaceRecord (K : Type) where
  features : List K
  all_features : List (List K)
  registered_at : String
  image_count : Nat
deriving DecidableEq

/-- The recognizer's store: `known_faces` is the in-memory dict (an
association list in Python-dict insertion order), `saved` is the durable
mirror (`face_data.json`, rewritten by `save_known_faces`). -/
structure FaceState (K : Type) where
  known_faces : List (String × FaceRecord K)
  saved : List (String × FaceRecord K)
deriving DecidableEq

/-- One element of the result list built by `recognize_face`. -/
structure RecogResult (K F : Type) where
  name : String
  confidence : K
  coordinates : F
deriving DecidableEq

variable {K : Type} [LinearOrderedField K] [FloorRing K]
variable {Img F B : Type}

/-- Round-half-to-even to an integer, the rounding mode of Python `round`. -/
def roundHalfEven (x : K) : ℤ :=
  let f := Int.floor x
  if x - f < 1 / 2 then f
  else if (1 : K) / 2 < x - f then f + 1
  else if 2 ∣ f then f else f + 1

/-- Python `round(y, 2)` in exact arithmetic. -/
def pyRound2 (y : K) : K := (roundHalfEven (y * 100) : ℤ) / 100

/-- `compare_faces` with the similarity value abstracted: returns
`(similarity > threshold, similarity)` (`app.py` lines 70-82). -/
def compareG (sim : List K → List K → K) (a b : List K) (t : K) : Bool × K :=
  (decide (t < sim a b), sim a b)

/-- `list(self.known_faces.keys())`. -/
def listNames (st : FaceState K) : List String := st.known_faces.map Prod.fst

/-- `save_known_faces`: mirror the in-memory dict to durable storage. -/
def save_known_faces (st : FaceState K) : FaceState K :=
  { st with saved := st.known_faces }

/-- `check_face_similarity` (`app.py` lines 84-102): walk the store in
order; for each record first compare against the primary `features`, then
against each entry of `all_features`, returning the record's name on the
first match; `none` when nothing matches.  (Records written by this app
always carry `all_features`, so the source's `'all_features' in face_data`
guard is always true and is modelled as such.) -/
def check_face_similarity (sim : List K → List K → K)
    (kf : List (String × FaceRecord K)) (features : List K) (t : K) :
    Option String :=
  match kf with
  | [] => none
  | (registered_name, face_data) :: rest =>
    if (compareG sim features face_data.features t).1 then some registered_name
    else if face_data.all_features.any
        (fun ind => (compareG sim features ind t).1) then
      some registered_name
    else check_face_similarity sim rest features t

/-- The message for `len(images) != 3`. -/
def wrongCountMsg : String := "Exactly 3 images are required"

/-- The message for an already-registered name. -/
def nameTakenMsg (name : String) : String :=
  "Person with name " ++ name ++
    " is already registered. Please use a different name or delete the existing registration first."

/-- The message for zero faces in sample image `i` (1-based). -/
def noFaceMsg (i : Nat) : String := "No face detected in image " ++ toString i

/-- The message for several faces in sample image `i` (1-based). -/
def multiFaceMsg (i : Nat) : String :=
  "Multiple faces detected in image " ++ toString i ++
    ". Please ensure only one face per image"

/-- The message for a duplicate face matching record `n`. -/
def dupFaceMsg (n : String) : String :=
  "This face appears to be already registered under the name " ++ n ++
    ". Each person can only be registered once."

/-- The success message of `register_face`. -/
def successMsg (k : Nat) : String :=
  "Face registered successfully with " ++ toString k ++ " high-quality photos!"

/-- The per-image validation loop of `register_face` (`app.py` lines
116-135): for each image in submission order, detect faces (fail on zero
or several), extract the descriptor, run the duplicate check at threshold
0.85 against the current store, and accumulate the descriptor.  `i` is the
1-based display index (`i+1` in the source). -/
def collectFeatures (detect : Img → List F) (extract : Img → F → List K)
    (sim : List K → List K → K) (st : FaceState K) :
    List Img → Nat → List (List K) → Except String (List (List K))
  | [], _, acc => Except.ok acc
  | image :: rest, i, acc =>
    match detect image with
    | [] => Except.error (noFaceMsg i)
    | _ :: _ :: _ => Except.error (multiFaceMsg i)
    | [face_coords] =>
      let features := extract image face_coords
      match check_face_similarity sim st.known_faces features (17 / 20) with
      | some duplicate_name => Except.error (dupFaceMsg duplicate_name)
      | none => collectFeatures detect extract sim st rest (i + 1) (acc ++ [features])

/-- `np.mean(all_features, axis=0)`: element-wise mean of the sample
descriptors. -/
def meanVec (ls : List (List K)) : List K :=
  match ls with
  | [] => []
  | v :: vs =>
    (vs.foldl (fun a b => List.zipWith (· + ·) a b) v).map
      (fun x => x / ((vs.length + 1 : Nat) : K))

/-- `register_face` (`app.py` lines 105-163).  `now` stands for
`datetime.now().isoformat()`. -/
def register_face (detect : Img → List F) (extract : Img → F → List K)
    (sim : List K → List K → K) (now : String) (st : FaceState K)
    (images : List Img) (name : String) : (Bool × String) × FaceState K :=
  if images.length ≠ 3 then ((false, wrongCountMsg), st)
  else if name ∈ listNames st then ((false, nameTakenMsg name), st)
  else
    match collectFeatures detect extract sim st images 1 [] with
    | Except.error msg => ((false, msg), st)
    | Except.ok all_features =>
      let newRecord : FaceRecord K :=
        { features := meanVec all_features
          all_features := all_features
          registered_at := now
          image_count := images.length }
      let st' := save_known_faces
        { st with known_faces := st.known_faces ++ [(name, newRecord)] }
      ((true, successMsg images.length), st')

/-- The per-record comparison of `recognize_face` (`app.py` lines 181-195):
compare the query against the record's primary `features` at the default
threshold 0.6; when that similarity is below 0.8, additionally fold a
maximum over the similarities to each entry of `all_features` (the match
flag of those inner `compare_faces` calls is discarded by the source) and
re-evaluate the match at threshold 0.75. -/
def compareRecord (sim : List K → List K → K) (features : List K)
    (face_data : FaceRecord K) : Bool × K :=
  let pr := compareG sim features face_data.features (3 / 5)
  if pr.2 < 4 / 5 then
    let s := face_data.all_features.foldl
      (fun b ind => max b (compareG sim features ind (3 / 5)).2) pr.2
    (decide ((3 : K) / 4 < s), s)
  else pr

/-- The best-match scan of `recognize_face` (`app.py` lines 177-200):
fold over the store with accumulator `(best_match, best_similarity)`,
updating only when a record's similarity strictly exceeds the running
best, and recording the name only when that record also matched. -/
def scanFaces (sim : List K → List K → K) (features : List K) :
    List (String × FaceRecord K) → Option String × K → Option String × K
  | [], acc => acc
  | (name, face_data) :: rest, acc =>
    let c := compareRecord sim features face_data
    scanFaces sim features rest
      (if acc.2 < c.2 then (if c.1 then some name else acc.1, c.2) else acc)

/-- The per-face body of `recognize_face`: identity (`best_match or
'Unknown'` — Python `or`, so an empty-string name also yields `Unknown`)
and `round(best_similarity * 100, 2)`. -/
def recognizeOne (sim : List K → List K → K)
    (kf : List (String × FaceRecord K)) (features : List K) : String × K :=
  let r := scanFaces sim features kf (none, 0)
  (match r.1 with
   | none => "Unknown"
   | some n => if n = "" then "Unknown" else n,
   pyRound2 (r.2 * 100))

/-- `recognize_face` (`app.py` lines 165-214): detect faces, and for each
detected face region extract a descriptor and run the best-match scan. -/
def recognize_face (detect : Img → List F) (extract : Img → F → List K)
    (sim : List K → List K → K) (st : FaceState K) (image : Img) :
    List (RecogResult K F) × String :=
  let faces := detect image
  if faces.isEmpty then ([], "No face detected")
  else
    (faces.map (fun face_coords =>
      let r := recognizeOne sim st.known_faces (extract image face_coords)
      { name := r.1, confidence := r.2, coordinates := face_coords }),
     "Recognition completed")

/-- The decode-and-validate loop of the `/register_multiple` route
(`app.py` lines 396-419): decode each transported image (`none` models a
decode failure), require exactly one detected face per photo.  `i` is the
1-based display index. -/
def decodeAll (decode : B → Option Img) (detect : Img → List F) :
    List B → Nat → List Img → Except String (List Img)
  | [], _, acc => Except.ok acc
  | image_data :: rest, i, acc =>
    match decode image_data with
    | none => Except.error ("Invalid image format in photo " ++ toString i)
    | some image =>
      if (detect image).length ≠ 1 then
        Except.error ("Photo " ++ toString i ++ " must contain exactly one face")
      else decodeAll decode detect rest (i + 1) (acc ++ [image])

/-- Python `str.strip()`: drop whitespace from both ends. -/
def stripStr (s : String) : String :=
  String.mk
    (((s.data.dropWhile Char.isWhitespace).reverse.dropWhile
        Char.isWhitespace).reverse)

/-- The `/register_multiple` route (`app.py` lines 382-427): strip the
name, reject an empty name, require exactly 3 images, decode and validate
them, then call `register_face`. -/
def register_multiple (decode : B → Option Img) (detect : Img → List F)
    (extract : Img → F → List K) (sim : List K → List K → K) (now : String)
    (st : FaceState K) (name : String) (images_data : List B) :
    (Bool × String) × FaceState K :=
  let name := stripStr name
  if name = "" then ((false, "Name is required"), st)
  else if images_data.length ≠ 3 then ((false, wrongCountMsg), st)
  else
    match decodeAll decode detect images_data 1 [] with
    | Except.error msg => ((false, msg), st)
    | Except.ok processed_images =>
      register_face detect extract sim now st processed_images name

/-- The `/delete_face/<name>` route (`app.py` lines 434-447): when the
name is a key of `known_faces`, delete it (Python `del` on a dict with
unique keys, modelled as a filter) and rewrite durable storage; otherwise
report a not-found failure and change nothing. -/
def delete_face (st : FaceState K) (name : String) :
    (Bool × String) × FaceState K :=
  if name ∈ listNames st then
    let st' := save_known_faces
      { st with known_faces := st.known_faces.filter (fun p => p.1 != name) }
    ((true, "Face for " ++ name ++ " deleted successfully"), st')
  else ((false, "Face not found"), st)

/-! ## The concrete Similarity Scorer over `ℝ`

`compare_faces` (`app.py` lines 70-82) divides both descriptors by their
Euclidean norm and takes the dot product.  NumPy float semantics: on a
zero vector the norm is `0.0` and the element-wise division produces NaN
(no exception is raised); the NaN propagates through the dot product and
`nan > threshold` is `False`.  Since Lean's real division-by-zero returns
`0` rather than NaN, the similarity is embedded as an `Option ℝ` whose
`none` marks exactly the NaN outcome (a zero-norm operand). -/

/-- `np.dot` on equal-length real vectors. -/
def dotp : List ℝ → List ℝ → ℝ
  | a :: as_, b :: bs => a * b + dotp as_ bs
  | _, _ => 0

/-- `np.linalg.norm`: the Euclidean norm. -/
noncomputable def vnorm (a : List ℝ) : ℝ := Real.sqrt (dotp a a)

/-- `features / np.linalg.norm(features)`: element-wise division. -/
noncomputable def normalizeV (a : List ℝ) : List ℝ :=
  a.map (fun x => x / vnorm a)

/-- The similarity value of `compare_faces` on non-degenerate input. -/
noncomputable def simReal (a b : List ℝ) : ℝ :=
  dotp (normalizeV a) (normalizeV b)

/-- `compare_faces` (`app.py` lines 70-82) over `ℝ`, with NumPy's NaN
modelled by `none`: the result is `(similarity > threshold, similarity)`,
where a zero-norm operand yields a NaN similarity and a `False` match flag
(NumPy raises no error there, it only warns). -/
noncomputable def compare_faces (t : ℝ) (features1 features2 : List ℝ) :
    Bool × Option ℝ :=
  if dotp features1 features1 = 0 ∨ dotp features2 features2 = 0 then
    (false, none)
  else
    (decide (t < simReal features1 features2), some (simReal features1 features2))

/-! ## Helper lemmas -/

lemma pyRound2_zero : pyRound2 (0 : K) = 0 := by
  simp [pyRound2, roundHalfEven]

lemma roundHalfEven_intCast (n : ℤ) : roundHalfEven ((n : K)) = n := by
  have h0 : ((n : K)) - ((Int.floor ((n : K)) : ℤ) : K) = 0 := by
    rw [Int.floor_intCast]
    ring
  simp [roundHalfEven, h0]

lemma pyRound2_hundred : pyRound2 (100 : K) = 100 := by
  have h : ((100 : K) * 100) = ((10000 : ℤ) : K) := by norm_num
  rw [pyRound2, h, roundHalfEven_intCast]
  norm_num

lemma le_foldl_max (l : List K) (b : K) : b ≤ l.foldl max b := by
  induction l generalizing b with
  | nil => exact le_rfl
  | cons x xs ih => exact le_trans (le_max_left b x) (ih (max b x))

lemma foldl_max_le_of_mem (l : List K) (b : K) :
    ∀ x ∈ l, x ≤ l.foldl max b := by
  induction l generalizing b with
  | nil => intro x hx; cases hx
  | cons a xs ih =>
    intro x hx
    rcases List.mem_cons.mp hx with h | h
    · subst h
      exact le_trans (le_max_right b x) (le_foldl_max xs (max b x))
    · exact ih (max b a) x h

lemma foldl_max_eq_or_mem (l : List K) (b : K) :
    l.foldl max b = b ∨ l.foldl max b ∈ l := by
  induction l generalizing b with
  | nil => exact Or.inl rfl
  | cons x xs ih =>
    rcases ih (max b x) with h | h
    · rcases max_choice b x with hb | hx
      · exact Or.inl (by rw [List.foldl_cons, h, hb])
      · exact Or.inr (by
          rw [List.foldl_cons, h, hx]; exact List.mem_cons_self x xs)
    · exact Or.inr (List.mem_cons_of_mem x h)

/-- The effective per-record verdict of `recognize_face` is equivalent to
the effective similarity exceeding 0.75 (because a primary similarity of
at least 0.8 skips refinement but already exceeds both 0.6 and 0.75). -/
lemma compareRecord_fst_iff (sim : List K → List K → K) (features : List K)
    (fd : FaceRecord K) :
    (compareRecord sim features fd).1 = true ↔
      (3 : K) / 4 < (compareRecord sim features fd).2 := by
  by_cases h : sim features fd.features < 4 / 5
  · simp [compareRecord, compareG, h]
  · have h' : (4 : K) / 5 ≤ sim features fd.features := not_lt.mp h
    have c1 : (3 : K) / 5 < 4 / 5 := by norm_num
    have c2 : (3 : K) / 4 < 4 / 5 := by norm_num
    simp only [compareRecord, compareG, if_neg h, decide_eq_true_eq]
    constructor
    · intro _; exact lt_of_lt_of_le c2 h'
    · intro _; exact lt_of_lt_of_le c1 h'

lemma compareRecord_fst_false_iff (sim : List K → List K → K)
    (features : List K) (fd : FaceRecord K) :
    (compareRecord sim features fd).1 = false ↔
      (compareRecord sim features fd).2 ≤ (3 : K) / 4 := by
  rw [← not_lt, ← compareRecord_fst_iff]
  simp

/-! ## C3: enrollment is all-or-nothing -/

/-- C3: whenever `register_face` fails (for any reason: wrong sample
count, name conflict, zero or several detected faces, or a duplicate
face), the returned state — the in-memory mapping and its durable mirror
both — is exactly the state that was passed in. -/
theorem register_face_all_or_nothing (detect : Img → List F)
    (extract : Img → F → List K) (sim : List K → List K → K) (now : String)
    (st : FaceState K) (images : List Img) (name : String)
    (h : (register_face detect extract sim now st images name).1.1 = false) :
    (register_face detect extract sim now st images name).2 = st := by
  by_cases h3 : images.length = 3
  · by_cases hn : name ∈ listNames st
    · simp [register_face, h3, hn]
    · rcases hc : collectFeatures detect extract sim st images 1 [] with msg | feats
      · simp [register_face, h3, hn, hc]
      · exfalso
        simp [register_face, h3, hn, hc] at h
  · simp [register_face, h3]

/-- Witness for C3: registering with zero images fails with the
wrong-sample-count message and leaves a one-record store untouched. -/
theorem register_face_all_or_nothing_witness :
    (register_face (fun _ : Unit => [()]) (fun _ _ => [(1 : ℚ)])
        (fun _ _ => 0) "" ⟨[("a", ⟨[1], [[1]], "", 3⟩)], []⟩ [] "x").1.1 = false
    ∧ (register_face (fun _ : Unit => [()]) (fun _ _ => [(1 : ℚ)])
        (fun _ _ => 0) "" ⟨[("a", ⟨[1], [[1]], "", 3⟩)], []⟩ [] "x").2
        = ⟨[("a", ⟨[1], [[1]], "", 3⟩)], []⟩ :=
  ⟨rfl, register_face_all_or_nothing _ _ _ _ _ _ _ rfl⟩

/-! ## C7: an empty name is rejected before anything is written -/

/-- C7: for every list of submitted images, `register_multiple` with a
name that strips to the empty string fails with the name-required message
and returns the store exactly as it was (no record is written). -/
theorem register_multiple_empty_name (decode : B → Option Img)
    (detect : Img → List F) (extract : Img → F → List K)
    (sim : List K → List K → K) (now : String) (st : FaceState K)
    (name : String) (images_data : List B) (h : stripStr name = "") :
    register_multiple decode detect extract sim now st name images_data
      = ((false, "Name is required"), st) := by
  simp [register_multiple, h]

/-- Witness for C7: an all-whitespace name is rejected and the store is
unchanged. -/
theorem register_multiple_empty_name_witness :
    (stripStr " " = "")
    ∧ register_multiple (fun b : Unit => some b) (fun _ => [()])
        (fun _ _ => [(1 : ℚ)]) (fun _ _ => 0) "" ⟨[], []⟩ " " [(), (), ()]
        = ((false, "Name is required"), ⟨[], []⟩) :=
  ⟨by decide, register_multiple_empty_name _ _ _ _ _ _ _ _ (by decide)⟩

/-! ## C10: recognition against an empty store -/

/-- C10: with no enrolled records, `recognize_face` on an image in which
the detector finds at least one face returns exactly one result per
detected face, each with identity `"Unknown"` and confidence exactly `0`
(the best-similarity accumulator starts at `0` and is never updated). -/
theorem recognize_face_empty_store (detect : Img → List F)
    (extract : Img → F → List K) (sim : List K → List K → K)
    (st : FaceState K) (image : Img) (hkf : st.known_faces = [])
    (hfaces : detect image ≠ []) :
    recognize_face detect extract sim st image
      = ((detect image).map
          (fun f => { name := "Unknown", confidence := 0, coordinates := f }),
         "Recognition completed") := by
  have hne : (detect image).isEmpty = false := by
    simpa [List.isEmpty_iff] using hfaces
  simp [recognize_face, hne, recognizeOne, scanFaces, hkf, pyRound2_zero]

/-- Witness for C10: one detected face, empty store, identity `"Unknown"`
with confidence `0`. -/
theorem recognize_face_empty_store_witness :
    ((⟨[], []⟩ : FaceState ℚ).known_faces = [] ∧ [()] ≠ ([] : List Unit))
    ∧ recognize_face (fun _ : Unit => [()]) (fun _ _ => [(1 : ℚ)])
        (fun _ _ => 0) ⟨[], []⟩ ()
        = ([{ name := "Unknown", confidence := 0, coordinates := () }],
           "Recognition completed") :=
  ⟨⟨rfl, by simp⟩,
   recognize_face_empty_store _ _ _ _ _ rfl (by simp)⟩

/-! ## C8: deletion -/

/-- C8: deleting an enrolled name succeeds, removes it from the name list
and from the durable mirror (so a fresh load no longer contains it),
keeps every other name, and rewrites durable storage to match the
in-memory mapping; deleting an unknown name fails with the not-found
message and leaves the whole state unchanged. -/
theorem delete_face_spec (st : FaceState K) (name : String) :
    (name ∈ listNames st →
      (delete_face st name).1
          = (true, "Face for " ++ name ++ " deleted successfully")
      ∧ name ∉ listNames (delete_face st name).2
      ∧ name ∉ ((delete_face st name).2.saved.map Prod.fst)
      ∧ (delete_face st name).2.saved = (delete_face st name).2.known_faces
      ∧ ∀ m, m ≠ name →
          (m ∈ listNames (delete_face st name).2 ↔ m ∈ listNames st))
    ∧ (name ∉ listNames st →
        delete_face st name = ((false, "Face not found"), st)) := by
  by_cases hmem : name ∈ listNames st
  · have hres : delete_face st name
        = ((true, "Face for " ++ name ++ " deleted successfully"),
           ⟨st.known_faces.filter (fun p => p.1 != name),
            st.known_faces.filter (fun p => p.1 != name)⟩) := by
      simp only [delete_face, if_pos hmem, save_known_faces]
    refine ⟨fun _ => ⟨?_, ?_, ?_, ?_, ?_⟩, fun h => absurd hmem h⟩
    · rw [hres]
    · rw [hres]
      simp [listNames, List.mem_map, List.mem_filter]
    · rw [hres]
      simp [List.mem_map, List.mem_filter]
    · rw [hres]
    · intro m hm
      rw [hres]
      simp only [listNames, List.mem_map, List.mem_filter, bne_iff_ne, ne_eq]
      constructor
      · rintro ⟨p, ⟨hp, _⟩, hpm⟩; exact ⟨p, hp, hpm⟩
      · rintro ⟨p, hp, hpm⟩
        exact ⟨p, ⟨hp, by simp [hpm, hm]⟩, hpm⟩
  · exact ⟨fun h => absurd h hmem, fun _ => by simp [delete_face, hmem]⟩

/-- Witness for C8: on the store `{a, b}`, deleting `"a"` removes exactly
`"a"` from the names and from the durable mirror, and deleting `"c"`
fails and changes nothing. -/
theorem delete_face_spec_witness :
    (("a" ∈ listNames (⟨[("a", ⟨[1], [[1]], "", 3⟩), ("b", ⟨[2], [[2]], "", 3⟩)],
        []⟩ : FaceState ℚ))
      ∧ "a" ∉ listNames (delete_face
          (⟨[("a", ⟨[1], [[1]], "", 3⟩), ("b", ⟨[2], [[2]], "", 3⟩)], []⟩ :
            FaceState ℚ) "a").2)
    ∧ delete_face (⟨[("a", ⟨[1], [[1]], "", 3⟩)], []⟩ : FaceState ℚ) "c"
        = ((false, "Face not found"), ⟨[("a", ⟨[1], [[1]], "", 3⟩)], []⟩) :=
  ⟨⟨by decide,
    ((delete_face_spec
        (⟨[("a", ⟨[1], [[1]], "", 3⟩), ("b", ⟨[2], [[2]], "", 3⟩)], []⟩ :
          FaceState ℚ) "a").1 (by decide)).2.1⟩,
   (delete_face_spec (⟨[("a", ⟨[1], [[1]], "", 3⟩)], []⟩ : FaceState ℚ)
      "c").2 (by decide)⟩

/-! ## C1: identity and confidence emitted by recognition -/

/-- The running best similarity of the scan is the fold of `max` over the
per-record effective similarities. -/
lemma scanFaces_snd (sim : List K → List K → K) (features : List K) :
    ∀ (l : List (String × FaceRecord K)) (acc : Option String × K),
    (scanFaces sim features l acc).2
      = (l.map (fun p => (compareRecord sim features p.2).2)).foldl max acc.2 := by
  intro l
  induction l with
  | nil => intro acc; rfl
  | cons p rest ih =>
    intro acc
    obtain ⟨n, fd⟩ := p
    simp only [scanFaces, List.map_cons, List.foldl_cons]
    rw [ih]
    congr 1
    by_cases h : acc.2 < (compareRecord sim features fd).2
    · simp [if_pos h, max_eq_right (le_of_lt h)]
    · simp [if_neg h, max_eq_left (not_lt.mp h)]

/-- Semantics of the best-match name produced by the scan, for any
accumulator consistent with the scan's reachable states: a `none` result
means the accumulator carried `none` and no record matched; a `some n`
result is either carried over unchanged or names a matching record whose
effective similarity equals the final best similarity. -/
lemma scanFaces_fst_spec (sim : List K → List K → K) (features : List K) :
    ∀ (l : List (String × FaceRecord K)) (bm0 : Option String) (bs0 : K),
    (∀ n, bm0 = some n → (3 : K) / 4 < bs0) →
    (bm0 = none → bs0 ≤ 3 / 4) →
    ((scanFaces sim features l (bm0, bs0)).1 = none →
        bm0 = none ∧ ∀ p ∈ l, (compareRecord sim features p.2).1 = false)
    ∧ (∀ n, (scanFaces sim features l (bm0, bs0)).1 = some n →
        (bm0 = some n ∧ (scanFaces sim features l (bm0, bs0)).2 = bs0)
        ∨ ∃ p ∈ l, p.1 = n ∧ (compareRecord sim features p.2).1 = true
            ∧ (compareRecord sim features p.2).2
                = (scanFaces sim features l (bm0, bs0)).2) := by
  intro l
  induction l with
  | nil =>
    intro bm0 bs0 _ _
    exact ⟨fun h => ⟨h, fun p hp => absurd hp (List.not_mem_nil p)⟩,
      fun n h => Or.inl ⟨h, rfl⟩⟩
  | cons p rest ih =>
    intro bm0 bs0 H0 H1
    obtain ⟨pn, pfd⟩ := p
    set c := compareRecord sim features pfd with hc
    by_cases hlt : bs0 < c.2
    · by_cases hm : c.1 = true
      · -- new strict best, matched: the accumulator becomes (some pn, c.2)
        have hstep : scanFaces sim features ((pn, pfd) :: rest) (bm0, bs0)
            = scanFaces sim features rest (some pn, c.2) := by
          simp [scanFaces, ← hc, if_pos hlt, hm]
        have H0' : ∀ n, (some pn : Option String) = some n → (3 : K) / 4 < c.2 :=
          fun n _ => (compareRecord_fst_iff sim features pfd).mp hm
        have H1' : (some pn : Option String) = none → c.2 ≤ 3 / 4 := by
          intro h; cases h
        obtain ⟨ihn, ihs⟩ := ih (some pn) c.2 H0' H1'
        rw [hstep]
        constructor
        · intro h
          obtain ⟨habs, _⟩ := ihn h
          cases habs
        · intro n h
          rcases ihs n h with ⟨heq, hsnd⟩ | ⟨q, hq, hqn, hqm, hqs⟩
          · refine Or.inr ⟨(pn, pfd), List.mem_cons_self _ _, ?_, hm, ?_⟩
            · exact (Option.some.injEq _ _ ▸ heq)
            · rw [hsnd]
          · exact Or.inr ⟨q, List.mem_cons_of_mem _ hq, hqn, hqm, hqs⟩
      · -- new strict best, not matched: becomes (bm0, c.2)
        have hmf : c.1 = false := by
          cases hcv : c.1
          · rfl
          · exact absurd hcv hm
        have hstep : scanFaces sim features ((pn, pfd) :: rest) (bm0, bs0)
            = scanFaces sim features rest (bm0, c.2) := by
          simp [scanFaces, ← hc, if_pos hlt, hmf]
        have hle : c.2 ≤ 3 / 4 :=
          (compareRecord_fst_false_iff sim features pfd).mp hmf
        have H0' : ∀ n, bm0 = some n → (3 : K) / 4 < c.2 :=
          fun n h => lt_trans (H0 n h) hlt
        have H1' : bm0 = none → c.2 ≤ 3 / 4 := fun _ => hle
        obtain ⟨ihn, ihs⟩ := ih bm0 c.2 H0' H1'
        rw [hstep]
        constructor
        · intro h
          obtain ⟨hb, hrest⟩ := ihn h
          refine ⟨hb, fun q hq => ?_⟩
          rcases List.mem_cons.mp hq with hq | hq
          · rw [hq]; exact hmf
          · exact hrest q hq
        · intro n h
          rcases ihs n h with ⟨heq, _⟩ | ⟨q, hq, hqn, hqm, hqs⟩
          · exact absurd (lt_trans (H0 n heq) hlt) (not_lt.mpr hle)
          · exact Or.inr ⟨q, List.mem_cons_of_mem _ hq, hqn, hqm, hqs⟩
    · -- no strict improvement: accumulator unchanged
      have hstep : scanFaces sim features ((pn, pfd) :: rest) (bm0, bs0)
          = scanFaces sim features rest (bm0, bs0) := by
        simp [scanFaces, ← hc, if_neg hlt]
      obtain ⟨ihn, ihs⟩ := ih bm0 bs0 H0 H1
      rw [hstep]
      constructor
      · intro h
        obtain ⟨hb, hrest⟩ := ihn h
        refine ⟨hb, fun q hq => ?_⟩
        rcases List.mem_cons.mp hq with hq | hq
        · rw [hq]
          have hbs : bs0 ≤ 3 / 4 := H1 hb
          have : c.2 ≤ 3 / 4 := le_trans (not_lt.mp hlt) hbs
          exact (compareRecord_fst_false_iff sim features pfd).mpr this
        · exact hrest q hq
      · intro n h
        rcases ihs n h with hcase | ⟨q, hq, hqn, hqm, hqs⟩
        · exact Or.inl hcase
        · exact Or.inr ⟨q, List.mem_cons_of_mem _ hq, hqn, hqm, hqs⟩

/-- C1: every result emitted by `recognize_face` carries the identity of
a matching record whose effective similarity is the best similarity, or
`"Unknown"` exactly when no record's comparison matched; its confidence is
`round(bestSimilarity * 100, 2)` where `bestSimilarity` is the highest
effective similarity observed across all records (whether or not that
record matched).  The hypotheses are the store invariants of the data
model: at least one record, non-empty names, and non-negative
similarities (cosine similarity of non-negative intensity vectors). -/
theorem recognize_face_best_match (detect : Img → List F)
    (extract : Img → F → List K) (sim : List K → List K → K)
    (st : FaceState K) (image : Img)
    (hne : st.known_faces ≠ [])
    (hnonneg : ∀ f ∈ detect image, ∀ p ∈ st.known_faces,
        0 ≤ (compareRecord sim (extract image f) p.2).2)
    (hnames : ∀ p ∈ st.known_faces, p.1 ≠ "") :
    ∀ r ∈ (recognize_face detect extract sim st image).1,
      ∃ f ∈ detect image, r.coordinates = f
        ∧ ∃ bs : K,
            bs ∈ st.known_faces.map
              (fun p => (compareRecord sim (extract image f) p.2).2)
            ∧ (∀ p ∈ st.known_faces,
                (compareRecord sim (extract image f) p.2).2 ≤ bs)
            ∧ r.confidence = pyRound2 (bs * 100)
            ∧ (((∀ p ∈ st.known_faces,
                  (compareRecord sim (extract image f) p.2).1 = false)
                 ∧ r.name = "Unknown")
               ∨ (∃ p ∈ st.known_faces,
                  (compareRecord sim (extract image f) p.2).1 = true
                  ∧ (compareRecord sim (extract image f) p.2).2 = bs
                  ∧ r.name = p.1)) := by
  intro r hr
  have hd : (detect image).isEmpty = false := by
    cases hd : (detect image).isEmpty
    · rfl
    · rw [recognize_face] at hr
      simp [hd] at hr
  have hrw : (recognize_face detect extract sim st image).1
      = (detect image).map (fun f =>
          { name := (recognizeOne sim st.known_faces (extract image f)).1,
            confidence := (recognizeOne sim st.known_faces (extract image f)).2,
            coordinates := f }) := by
    simp [recognize_face, hd]
  rw [hrw] at hr
  obtain ⟨f, hf, hrf⟩ := List.mem_map.mp hr
  refine ⟨f, hf, by rw [← hrf], ?_⟩
  have hsnd : (scanFaces sim (extract image f) st.known_faces (none, (0 : K))).2
      = (st.known_faces.map
          (fun p => (compareRecord sim (extract image f) p.2).2)).foldl max 0 :=
    scanFaces_snd sim (extract image f) st.known_faces (none, 0)
  have hub : ∀ p ∈ st.known_faces, (compareRecord sim (extract image f) p.2).2
      ≤ (scanFaces sim (extract image f) st.known_faces (none, (0 : K))).2 := by
    intro p hp
    rw [hsnd]
    exact foldl_max_le_of_mem _ 0 _ (List.mem_map_of_mem _ hp)
  have hmem : (scanFaces sim (extract image f) st.known_faces (none, (0 : K))).2
      ∈ st.known_faces.map
        (fun p => (compareRecord sim (extract image f) p.2).2) := by
    rcases foldl_max_eq_or_mem (st.known_faces.map
        (fun p => (compareRecord sim (extract image f) p.2).2)) 0 with h0 | hm
    · -- the fold stayed at 0: every similarity is both ≤ 0 and ≥ 0
      obtain ⟨p0, hp0⟩ := List.exists_mem_of_ne_nil st.known_faces hne
      have hle : (compareRecord sim (extract image f) p0.2).2 ≤ 0 := by
        have h := hub p0 hp0
        rw [hsnd] at h
        exact le_trans h (le_of_eq h0)
      have hge : 0 ≤ (compareRecord sim (extract image f) p0.2).2 :=
        hnonneg f hf p0 hp0
      have heq0 : (compareRecord sim (extract image f) p0.2).2 = 0 :=
        le_antisymm hle hge
      rw [hsnd, h0, ← heq0]
      exact List.mem_map_of_mem _ hp0
    · rw [hsnd]; exact hm
  refine ⟨(scanFaces sim (extract image f) st.known_faces (none, (0 : K))).2,
    hmem, hub, ?_, ?_⟩
  · rw [← hrf]
    rfl
  · have hspec := scanFaces_fst_spec sim (extract image f) st.known_faces none 0
      (fun n h => by cases h) (fun _ => by norm_num)
    rcases hfst : (scanFaces sim (extract image f) st.known_faces
        (none, (0 : K))).1 with _ | n
    · -- no record matched
      obtain ⟨_, hall⟩ := hspec.1 hfst
      refine Or.inl ⟨hall, ?_⟩
      rw [← hrf]
      show (recognizeOne sim st.known_faces (extract image f)).1 = "Unknown"
      simp only [recognizeOne, hfst]
    · -- a record matched: it achieves the best similarity
      rcases hspec.2 n hfst with ⟨habs, _⟩ | ⟨p, hp, hpn, hpm, hps⟩
      · cases habs
      · refine Or.inr ⟨p, hp, hpm, hps, ?_⟩
        rw [← hrf]
        have hnn : n ≠ "" := hpn ▸ hnames p hp
        show (recognizeOne sim st.known_faces (extract image f)).1 = p.1
        simp only [recognizeOne, hfst, if_neg hnn]
        exact hpn.symm

/-- Witness for C1: a one-record store where the query matches; the
emitted identity is the record's name and the confidence is 100. -/
theorem recognize_face_best_match_witness :
    ∃ f ∈ [()], (({ name := "alice", confidence := 100, coordinates := () } :
        RecogResult ℚ Unit).coordinates = f)
      ∧ ∃ bs : ℚ,
          bs ∈ ([("alice", ⟨[1], [[1]], "", 3⟩)] :
              List (String × FaceRecord ℚ)).map
            (fun p => (compareRecord (fun a b => if a = b then 1 else 0)
              [(1 : ℚ)] p.2).2)
          ∧ (∀ p ∈ ([("alice", ⟨[1], [[1]], "", 3⟩)] :
              List (String × FaceRecord ℚ)),
              (compareRecord (fun a b => if a = b then 1 else 0)
                [(1 : ℚ)] p.2).2 ≤ bs)
          ∧ (({ name := "alice", confidence := 100, coordinates := () } :
              RecogResult ℚ Unit).confidence = pyRound2 (bs * 100))
          ∧ (((∀ p ∈ ([("alice", ⟨[1], [[1]], "", 3⟩)] :
                List (String × FaceRecord ℚ)),
                (compareRecord (fun a b => if a = b then 1 else 0)
                  [(1 : ℚ)] p.2).1 = false)
               ∧ ({ name := "alice", confidence := 100, coordinates := () } :
                  RecogResult ℚ Unit).name = "Unknown")
             ∨ (∃ p ∈ ([("alice", ⟨[1], [[1]], "", 3⟩)] :
                List (String × FaceRecord ℚ)),
                (compareRecord (fun a b => if a = b then 1 else 0)
                  [(1 : ℚ)] p.2).1 = true
                ∧ (compareRecord (fun a b => if a = b then 1 else 0)
                  [(1 : ℚ)] p.2).2 = bs
                ∧ ({ name := "alice", confidence := 100, coordinates := () } :
                   RecogResult ℚ Unit).name = p.1)) := by
  have hc : compareRecord (fun a b : List ℚ => if a = b then 1 else 0)
      [(1 : ℚ)] ⟨[1], [[1]], "", 3⟩ = (true, 1) := by
    norm_num [compareRecord, compareG]
  have hone : recognizeOne (fun a b : List ℚ => if a = b then 1 else 0)
      [("alice", ⟨[1], [[1]], "", 3⟩)] [(1 : ℚ)] = ("alice", 100) := by
    simp only [recognizeOne, scanFaces, hc]
    norm_num [pyRound2_hundred]
    exact fun h => absurd h (by decide)
  have hres : (recognize_face (fun _ : Unit => [()]) (fun _ _ => [(1 : ℚ)])
      (fun a b => if a = b then 1 else 0)
      ⟨[("alice", ⟨[1], [[1]], "", 3⟩)], []⟩ ()).1
      = [{ name := "alice", confidence := 100, coordinates := () }] := by
    simp only [recognize_face, List.isEmpty_cons, List.map_cons,
      List.map_nil, hone]
    simp
  have h := recognize_face_best_match (fun _ : Unit => [()])
    (fun _ _ => [(1 : ℚ)]) (fun a b => if a = b then 1 else 0)
    ⟨[("alice", ⟨[1], [[1]], "", 3⟩)], []⟩ ()
    (by simp)
    (by
      intro f _ p hp
      rw [List.mem_singleton] at hp
      subst hp
      show (0 : ℚ) ≤ (compareRecord (fun a b => if a = b then 1 else 0)
        [(1 : ℚ)] ⟨[1], [[1]], "", 3⟩).2
      rw [hc]
      norm_num)
    (by
      intro p hp
      rw [List.mem_singleton] at hp
      subst hp
      simp)
    { name := "alice", confidence := 100, coordinates := () }
    (by rw [hres]; exact List.mem_singleton.mpr rfl)
  exact h

/-! ## C5: the Duplicate Guard -/

/-- The match predicate of one Duplicate-Guard step: the record's primary
descriptor matches, or some individual sample descriptor matches. -/
def dupHit (sim : List K → List K → K) (features : List K) (t : K)
    (p : String × FaceRecord K) : Bool :=
  (compareG sim features p.2.features t).1
    || p.2.all_features.any (fun ind => (compareG sim features ind t).1)

lemma check_face_similarity_eq_find (sim : List K → List K → K)
    (features : List K) (t : K) :
    ∀ kf : List (String × FaceRecord K),
    check_face_similarity sim kf features t
      = (kf.find? (dupHit sim features t)).map Prod.fst := by
  intro kf
  induction kf with
  | nil => rfl
  | cons p rest ih =>
    obtain ⟨n, fd⟩ := p
    by_cases h1 : (compareG sim features fd.features t).1 = true
    · simp [check_face_similarity, dupHit, h1]
    · by_cases h2 : fd.all_features.any
          (fun ind => (compareG sim features ind t).1) = true
      · simp [check_face_similarity, dupHit, h1, h2]
      · simp [check_face_similarity, dupHit, h1, h2, ih]

/-- C5: the Duplicate Guard returns the name of the first record (in store
order) whose primary descriptor or any individual sample descriptor
exceeds the threshold; it returns `none` exactly when no record's primary
or sample descriptor matches; and any returned name is a key of the
store. -/
theorem check_face_similarity_spec (sim : List K → List K → K)
    (kf : List (String × FaceRecord K)) (features : List K) (t : K) :
    check_face_similarity sim kf features t
      = (kf.find? (dupHit sim features t)).map Prod.fst
    ∧ (check_face_similarity sim kf features t = none ↔
        ∀ p ∈ kf, ¬ (t < sim features p.2.features)
          ∧ ∀ ind ∈ p.2.all_features, ¬ (t < sim features ind))
    ∧ (∀ n, check_face_similarity sim kf features t = some n →
        n ∈ kf.map Prod.fst) := by
  have hfind := check_face_similarity_eq_find sim features t kf
  refine ⟨hfind, ?_, ?_⟩
  · rw [hfind, Option.map_eq_none', List.find?_eq_none]
    constructor
    · intro h p hp
      have := h p hp
      simp only [dupHit, compareG, Bool.or_eq_true, decide_eq_true_eq,
        List.any_eq_true, not_or] at this
      obtain ⟨h1, h2⟩ := this
      refine ⟨h1, fun ind hind hlt => h2 ⟨ind, hind, by simp [hlt]⟩⟩
    · intro h p hp
      obtain ⟨h1, h2⟩ := h p hp
      simp only [dupHit, compareG, Bool.or_eq_true, decide_eq_true_eq,
        List.any_eq_true, not_or]
      exact ⟨h1, fun hex => by
        obtain ⟨ind, hind, hlt⟩ := hex
        exact h2 ind hind (by simpa using hlt)⟩
  · intro n h
    rw [hfind] at h
    obtain ⟨p, hp, hpn⟩ := Option.map_eq_some'.mp h
    exact hpn ▸ List.mem_map_of_mem _ (List.mem_of_find?_eq_some hp)

/-- Witness for C5: on a two-record store, the guard reports the first
record whose sample (not primary) descriptor matches. -/
theorem check_face_similarity_spec_witness :
    check_face_similarity (fun a b : List ℚ => if a = b then 1 else 0)
        [("bob", ⟨[2], [[1]], "", 3⟩), ("eve", ⟨[1], [[1]], "", 3⟩)]
        [(1 : ℚ)] (17 / 20)
      = (([("bob", ⟨[2], [[1]], "", 3⟩), ("eve", ⟨[1], [[1]], "", 3⟩)] :
          List (String × FaceRecord ℚ)).find?
            (dupHit (fun a b : List ℚ => if a = b then 1 else 0) [(1 : ℚ)]
              (17 / 20))).map Prod.fst
    ∧ (∀ n, check_face_similarity (fun a b : List ℚ => if a = b then 1 else 0)
        [("bob", ⟨[2], [[1]], "", 3⟩), ("eve", ⟨[1], [[1]], "", 3⟩)]
        [(1 : ℚ)] (17 / 20) = some n →
        n ∈ (([("bob", ⟨[2], [[1]], "", 3⟩), ("eve", ⟨[1], [[1]], "", 3⟩)] :
          List (String × FaceRecord ℚ)).map Prod.fst)) :=
  ⟨(check_face_similarity_spec (fun a b : List ℚ => if a = b then 1 else 0)
      [("bob", ⟨[2], [[1]], "", 3⟩), ("eve", ⟨[1], [[1]], "", 3⟩)]
      [(1 : ℚ)] (17 / 20)).1,
   (check_face_similarity_spec (fun a b : List ℚ => if a = b then 1 else 0)
      [("bob", ⟨[2], [[1]], "", 3⟩), ("eve", ⟨[1], [[1]], "", 3⟩)]
      [(1 : ℚ)] (17 / 20)).2.2⟩

/-! ## C6 and C9: the concrete Similarity Scorer -/

lemma dotp_self_nonneg (a : List ℝ) : 0 ≤ dotp a a := by
  induction a with
  | nil => simp [dotp]
  | cons x xs ih =>
    show 0 ≤ x * x + dotp xs xs
    have := mul_self_nonneg x
    linarith

lemma dotp_self_pos (a : List ℝ) (h : ∃ x ∈ a, x ≠ 0) : 0 < dotp a a := by
  induction a with
  | nil => obtain ⟨x, hx, _⟩ := h; cases hx
  | cons x xs ih =>
    obtain ⟨y, hy, hy0⟩ := h
    rcases List.mem_cons.mp hy with heq | hmem
    · subst heq
      exact add_pos_of_pos_of_nonneg (mul_self_pos.mpr hy0)
        (dotp_self_nonneg xs)
    · exact add_pos_of_nonneg_of_pos (mul_self_nonneg x) (ih ⟨y, hmem, hy0⟩)

lemma dotp_map_div (c d : ℝ) :
    ∀ a b : List ℝ,
    dotp (a.map (fun x => x / c)) (b.map (fun x => x / d))
      = dotp a b / (c * d) := by
  intro a
  induction a with
  | nil => intro b; simp [dotp]
  | cons x xs ih =>
    intro b
    cases b with
    | nil => simp [dotp]
    | cons y ys =>
      show x / c * (y / d) + dotp (xs.map (fun x => x / c))
          (ys.map (fun x => x / d)) = (x * y + dotp xs ys) / (c * d)
      rw [ih ys, div_mul_div_comm, div_add_div_same]

/-- A descriptor compared against itself has cosine similarity exactly 1
(in exact arithmetic). -/
lemma simReal_self (a : List ℝ) (h : 0 < dotp a a) : simReal a a = 1 := by
  unfold simReal normalizeV vnorm
  rw [dotp_map_div, Real.mul_self_sqrt (le_of_lt h)]
  exact div_self (ne_of_gt h)

/-- C9: for every non-zero descriptor `a` and every threshold `t`,
`compare_faces t a a` reports similarity exactly 1, and for `t < 1` the
verdict is a match. -/
theorem compare_faces_self (a : List ℝ) (h : ∃ x ∈ a, x ≠ 0) (t : ℝ) :
    (compare_faces t a a).2 = some 1
    ∧ (t < 1 → (compare_faces t a a).1 = true) := by
  have hpos := dotp_self_pos a h
  have hne0 : dotp a a ≠ 0 := ne_of_gt hpos
  have hs := simReal_self a hpos
  constructor
  · simp [compare_faces, hne0, hs]
  · intro ht
    simp [compare_faces, hne0, hs, ht]

/-- Witness for C9: the one-entry descriptor `[1]` at threshold `1/2`. -/
theorem compare_faces_self_witness :
    (∃ x ∈ [(1 : ℝ)], x ≠ 0)
    ∧ (compare_faces (1 / 2) [(1 : ℝ)] [1]).2 = some 1
    ∧ (compare_faces (1 / 2) [(1 : ℝ)] [1]).1 = true := by
  have hx : ∃ x ∈ [(1 : ℝ)], x ≠ 0 :=
    ⟨1, List.mem_singleton.mpr rfl, one_ne_zero⟩
  obtain ⟨h2, h1⟩ := compare_faces_self [(1 : ℝ)] hx (1 / 2)
  exact ⟨hx, h2, h1 (by norm_num)⟩

/-- C6 (the code at the claimed failing input): on the all-zero descriptor
the Scorer does not raise; NumPy's element-wise division emits NaN
(modelled `none`) and the match flag comes out `false`.  The spec demands
an explicit failure instead, so this is a divergence of the code from the
spec. -/
theorem compare_faces_zero_vector :
    compare_faces (3 / 5) [(0 : ℝ), 0] [1, 0] = (false, none) := by
  have h : dotp [(0 : ℝ), 0] [0, 0] = 0 := by norm_num [dotp]
  simp [compare_faces, h]

/-! ## C2: the refinement tier of recognition -/

/-- Claim-side tracker: the best raw primary similarity seen so far,
together with its record (first record wins ties). -/
def bestRawAux (sim : List K → List K → K) (features : List K) :
    List (String × FaceRecord K) → Option (String × FaceRecord K × K) →
    Option (String × FaceRecord K × K)
  | [], acc => acc
  | (n, fd) :: rest, acc =>
    let s := sim features fd.features
    bestRawAux sim features rest
      (match acc with
       | none => some (n, fd, s)
       | some (bn, bfd, bs) =>
         if bs < s then some (n, fd, s) else some (bn, bfd, bs))

/-- Claim-side tracker: the best `(name, similarity)` pair seen so far
among the primary comparisons whose match verdict (threshold 0.6) was
true. -/
def bestMatchedAux (sim : List K → List K → K) (features : List K) :
    List (String × FaceRecord K) → Option (String × K) → Option (String × K)
  | [], acc => acc
  | (n, fd) :: rest, acc =>
    let s := sim features fd.features
    bestMatchedAux sim features rest
      (if (3 : K) / 5 < s then
        match acc with
        | none => some (n, s)
        | some (bn, bs) => if bs < s then some (n, s) else some (bn, bs)
       else acc)

/-- Modelled from the claim's words (the spec's reading of the refinement
tier), for comparison with `recognizeOne`: compute primary similarities
for all records; only when the best primary similarity is below 0.8,
additionally compare the query against the individual sample descriptors
of that single best-similarity record, take the maximum there, and
re-evaluate matched-ness at 0.75 against this refined similarity. -/
def recognizeOneBestOnlyRefine (sim : List K → List K → K)
    (kf : List (String × FaceRecord K)) (features : List K) : String × K :=
  match bestRawAux sim features kf none with
  | none => ("Unknown", pyRound2 0)
  | some (bn, bfd, bs) =>
    if bs < (4 : K) / 5 then
      let refined := bfd.all_features.foldl
        (fun b ind => max b (sim features ind)) bs
      if (3 : K) / 4 < refined then (bn, pyRound2 (refined * 100))
      else
        (match bestMatchedAux sim features kf none with
         | some (mn, _) => mn
         | none => "Unknown", pyRound2 (refined * 100))
    else
      (match bestMatchedAux sim features kf none with
       | some (mn, _) => mn
       | none => "Unknown", pyRound2 (bs * 100))

lemma simReal_eq (a b : List ℝ) :
    simReal a b = dotp a b / (vnorm a * vnorm b) := by
  unfold simReal normalizeV
  rw [dotp_map_div]

/-- C2 counterexample: the code does not refine only the single
best-primary-similarity record.  With the query descriptor `[1, 0]`, a
record `A` whose primary is orthogonal (`[0, 1]`) but whose sample
descriptor is `[1, 0]`, and a record `B` whose primary is `[1, 0]`, the
best primary similarity is `1 ≥ 0.8`, so under the claim's algorithm no
refinement happens anywhere and the emitted identity is `"B"`; the code,
which refines every record whose own primary similarity is below 0.8,
refines `A` up to similarity 1 and emits `"A"`. -/
theorem recognize_refine_not_best_only :
    (recognizeOne simReal
        [("A", ⟨[0, 1], [[1, 0]], "", 3⟩), ("B", ⟨[1, 0], [[0, 1]], "", 3⟩)]
        [(1 : ℝ), 0]).1 = "A"
    ∧ (recognizeOneBestOnlyRefine simReal
        [("A", ⟨[0, 1], [[1, 0]], "", 3⟩), ("B", ⟨[1, 0], [[0, 1]], "", 3⟩)]
        [(1 : ℝ), 0]).1 = "B" := by
  have hd1 : dotp [(1 : ℝ), 0] [1, 0] = 1 := by norm_num [dotp]
  have hd0 : dotp [(1 : ℝ), 0] [0, 1] = 0 := by norm_num [dotp]
  have hd2 : dotp [(0 : ℝ), 1] [0, 1] = 1 := by norm_num [dotp]
  have hv1 : vnorm [(1 : ℝ), 0] = 1 := by
    unfold vnorm
    rw [hd1, Real.sqrt_one]
  have hv2 : vnorm [(0 : ℝ), 1] = 1 := by
    unfold vnorm
    rw [hd2, Real.sqrt_one]
  have hs10 : simReal [(1 : ℝ), 0] [0, 1] = 0 := by
    rw [simReal_eq, hd0, hv1, hv2]
    norm_num
  have hs11 : simReal [(1 : ℝ), 0] [1, 0] = 1 := by
    rw [simReal_eq, hd1, hv1]
    norm_num
  have hcA : compareRecord simReal [(1 : ℝ), 0] ⟨[0, 1], [[1, 0]], "", 3⟩
      = (true, 1) := by
    have hm : max (0 : ℝ) 1 = 1 := max_eq_right (by norm_num)
    norm_num [compareRecord, compareG, hs10, hs11, hm]
  have hcB : compareRecord simReal [(1 : ℝ), 0] ⟨[1, 0], [[0, 1]], "", 3⟩
      = (true, 1) := by
    norm_num [compareRecord, compareG, hs11]
  constructor
  · norm_num [recognizeOne, scanFaces, hcA, hcB]
    exact fun hq => absurd hq (by decide)
  · norm_num [recognizeOneBestOnlyRefine, bestRawAux, bestMatchedAux,
      hs10, hs11]

/-- C2 (amended): the refinement is applied per record, not only to the
best-primary record: for each record independently, when that record's
own primary similarity is below 0.8 the query is additionally compared
against every individual sample descriptor of that record, the record's
similarity becomes the maximum of its primary similarity and those sample
similarities, and its matched-ness is re-evaluated as refined similarity
strictly greater than 0.75; when the record's primary similarity is at
least 0.8 there is no refinement and its matched-ness is primary
similarity strictly greater than 0.6. -/
theorem compareRecord_per_record (sim : List K → List K → K)
    (features : List K) (fd : FaceRecord K) :
    (sim features fd.features < 4 / 5 →
      (compareRecord sim features fd).2
          = (fd.all_features.map (sim features)).foldl max
              (sim features fd.features)
      ∧ ((compareRecord sim features fd).1 = true ↔
          3 / 4 < (compareRecord sim features fd).2))
    ∧ (4 / 5 ≤ sim features fd.features →
      (compareRecord sim features fd).2 = sim features fd.features
      ∧ ((compareRecord sim features fd).1 = true ↔
          3 / 5 < sim features fd.features)) := by
  constructor
  · intro h
    refine ⟨?_, compareRecord_fst_iff sim features fd⟩
    simp only [compareRecord, compareG, if_pos h, List.foldl_map]
  · intro h
    have h' : ¬ (sim features fd.features < 4 / 5) := not_lt.mpr h
    constructor
    · simp only [compareRecord, compareG, if_neg h']
    · simp only [compareRecord, compareG, if_neg h', decide_eq_true_eq]

/-- Witness for the amended C2: a record whose primary similarity is 1/2
(below 0.8) is refined over its sample descriptors up to similarity 1 and
matched at the 0.75 tier. -/
theorem compareRecord_per_record_witness :
    (compareRecord (fun a b : List ℚ => if a = b then 1 else 1 / 2) [1]
      ⟨[2], [[1]], "", 3⟩).1 = true
    ∧ (compareRecord (fun a b : List ℚ => if a = b then 1 else 1 / 2) [1]
      ⟨[2], [[1]], "", 3⟩).2 = 1 := by
  obtain ⟨h1, hiff⟩ := (compareRecord_per_record
    (fun a b : List ℚ => if a = b then 1 else 1 / 2) [1]
    ⟨[2], [[1]], "", 3⟩).1 (by norm_num [List.cons.injEq])
  have hval : (compareRecord (fun a b : List ℚ => if a = b then 1 else 1 / 2)
      [1] (⟨[2], [[1]], "", 3⟩ : FaceRecord ℚ)).2 = 1 := by
    rw [h1]
    norm_num [List.cons.injEq]
  exact ⟨hiff.mpr (by rw [hval]; norm_num), hval⟩

/-! ## C4: the order of enrollment precondition checks -/

/-- C4 (amended): `register_face` checks, in order and short-circuiting on
the first failure: (1) exactly 3 images (regardless of content); (2) name
not already present; then (3) the images in submission order, and for each
image first the exactly-one-face detection check, then the Duplicate Guard
at threshold 0.85 for that image's descriptor — so a failure on an
earlier image is reported in preference to any failure on a later image,
and for one image detection is reported in preference to its duplicate
check; the state is unchanged in every failure case. -/
theorem register_face_check_order (detect : Img → List F)
    (extract : Img → F → List K) (sim : List K → List K → K) (now : String)
    (st : FaceState K) (name : String) (i1 i2 i3 : Img) :
    (∀ images : List Img, images.length ≠ 3 →
      register_face detect extract sim now st images name
        = ((false, wrongCountMsg), st))
    ∧ (∀ images : List Img, images.length = 3 → name ∈ listNames st →
      register_face detect extract sim now st images name
        = ((false, nameTakenMsg name), st))
    ∧ (name ∉ listNames st →
      (detect i1 = [] →
        register_face detect extract sim now st [i1, i2, i3] name
          = ((false, noFaceMsg 1), st))
      ∧ (∀ f g l, detect i1 = f :: g :: l →
        register_face detect extract sim now st [i1, i2, i3] name
          = ((false, multiFaceMsg 1), st))
      ∧ (∀ f1, detect i1 = [f1] →
        (∀ n, check_face_similarity sim st.known_faces (extract i1 f1)
            (17 / 20) = some n →
          register_face detect extract sim now st [i1, i2, i3] name
            = ((false, dupFaceMsg n), st))
        ∧ (check_face_similarity sim st.known_faces (extract i1 f1)
            (17 / 20) = none →
          (detect i2 = [] →
            register_face detect extract sim now st [i1, i2, i3] name
              = ((false, noFaceMsg 2), st))
          ∧ (∀ f g l, detect i2 = f :: g :: l →
            register_face detect extract sim now st [i1, i2, i3] name
              = ((false, multiFaceMsg 2), st))
          ∧ (∀ f2, detect i2 = [f2] →
            (∀ n, check_face_similarity sim st.known_faces (extract i2 f2)
                (17 / 20) = some n →
              register_face detect extract sim now st [i1, i2, i3] name
                = ((false, dupFaceMsg n), st))
            ∧ (check_face_similarity sim st.known_faces (extract i2 f2)
                (17 / 20) = none →
              (detect i3 = [] →
                register_face detect extract sim now st [i1, i2, i3] name
                  = ((false, noFaceMsg 3), st))
              ∧ (∀ f g l, detect i3 = f :: g :: l →
                register_face detect extract sim now st [i1, i2, i3] name
                  = ((false, multiFaceMsg 3), st))
              ∧ (∀ f3, detect i3 = [f3] →
                ∀ n, check_face_similarity sim st.known_faces (extract i3 f3)
                    (17 / 20) = some n →
                  register_face detect extract sim now st [i1, i2, i3] name
                    = ((false, dupFaceMsg n), st))))))) := by
  refine ⟨?_, ?_, ?_⟩
  · intro images h
    simp [register_face, h]
  · intro images h3 hn
    simp [register_face, h3, hn]
  · intro hnm
    have hreg : ∀ msg,
        collectFeatures detect extract sim st [i1, i2, i3] 1 []
          = Except.error msg →
        register_face detect extract sim now st [i1, i2, i3] name
          = ((false, msg), st) := by
      intro msg hc
      simp [register_face, hnm, hc]
    refine ⟨?_, ?_, ?_⟩
    · intro h1
      exact hreg _ (by simp [collectFeatures, h1])
    · intro f g l h1
      exact hreg _ (by simp [collectFeatures, h1])
    · intro f1 h1
      refine ⟨?_, ?_⟩
      · intro n hdup
        exact hreg _ (by simp [collectFeatures, h1, hdup])
      · intro hnone1
        refine ⟨?_, ?_, ?_⟩
        · intro h2
          exact hreg _ (by simp [collectFeatures, h1, hnone1, h2])
        · intro f g l h2
          exact hreg _ (by simp [collectFeatures, h1, hnone1, h2])
        · intro f2 h2
          refine ⟨?_, ?_⟩
          · intro n hdup
            exact hreg _ (by simp [collectFeatures, h1, hnone1, h2, hdup])
          · intro hnone2
            refine ⟨?_, ?_, ?_⟩
            · intro h3
              exact hreg _
                (by simp [collectFeatures, h1, hnone1, h2, hnone2, h3])
            · intro f g l h3
              exact hreg _
                (by simp [collectFeatures, h1, hnone1, h2, hnone2, h3])
            · intro f3 h3 n hdup
              exact hreg _
                (by simp [collectFeatures, h1, hnone1, h2, hnone2, h3, hdup])

/-- Witness for the amended C4: with zero detected faces in image 1 the
enrollment fails with the no-face message for image 1, and with a wrong
image count it fails with the wrong-count message; the store is unchanged
in both cases. -/
theorem register_face_check_order_witness :
    register_face (fun i : ℕ => if i = 1 then ([] : List Unit) else [()])
        (fun i _ => [(i : ℚ)]) (fun _ _ => 0) "" ⟨[], []⟩ [1, 2, 3] "x"
      = ((false, noFaceMsg 1), ⟨[], []⟩)
    ∧ register_face (fun i : ℕ => if i = 1 then ([] : List Unit) else [()])
        (fun i _ => [(i : ℚ)]) (fun _ _ => 0) "" ⟨[], []⟩ [] "x"
      = ((false, wrongCountMsg), ⟨[], []⟩) :=
  ⟨((register_face_check_order (fun i : ℕ => if i = 1 then ([] : List Unit)
      else [()]) (fun i _ => [(i : ℚ)]) (fun _ _ => 0) "" ⟨[], []⟩ "x"
      1 2 3).2.2 (by simp [listNames])).1 (by simp),
   (register_face_check_order (fun i : ℕ => if i = 1 then ([] : List Unit)
      else [()]) (fun i _ => [(i : ℚ)]) (fun _ _ => 0) "" ⟨[], []⟩ "x"
      1 2 3).1 [] (by simp)⟩

/-- C4 counterexample: the code interleaves the detection check and the
duplicate check per image, so a duplicate failure on image 1 is reported
even though image 2 has zero detected faces — the claim instead demands
that a detection failure on any image take precedence over any duplicate
failure.  Image 1 contains one face whose descriptor duplicates the
enrolled record `"zed"`; image 2 contains no face; the result is the
duplicate-face failure, not the no-face failure for image 2. -/
theorem register_face_order_cx :
    (register_face (fun i : ℕ => if i = 2 then ([] : List Unit) else [()])
        (fun i _ => [(i : ℚ)]) (fun a b => if a = b then 1 else 0) ""
        ⟨[("zed", ⟨[1], [[1]], "", 3⟩)], []⟩ [1, 2, 3] "newguy").1
      = (false, dupFaceMsg "zed")
    ∧ (fun i : ℕ => if i = 2 then ([] : List Unit) else [()]) 2 = []
    ∧ dupFaceMsg "zed" ≠ noFaceMsg 2 := by
  refine ⟨?_, by simp, by decide⟩
  have hdup : check_face_similarity (fun a b : List ℚ => if a = b then 1 else 0)
      [("zed", ⟨[1], [[1]], "", 3⟩)] [(1 : ℚ)] (17 / 20) = some "zed" := by
    simp only [check_face_similarity, compareG]
    norm_num
  have hc : collectFeatures (fun i : ℕ => if i = 2 then ([] : List Unit)
      else [()]) (fun i _ => [(i : ℚ)]) (fun a b => if a = b then 1 else 0)
      ⟨[("zed", ⟨[1], [[1]], "", 3⟩)], []⟩ [1, 2, 3] 1 []
      = Except.error (dupFaceMsg "zed") := by
    simp [collectFeatures, hdup]
  rw [show (register_face (fun i : ℕ => if i = 2 then ([] : List Unit)
      else [()]) (fun i _ => [(i : ℚ)]) (fun a b => if a = b then 1 else 0) ""
      ⟨[("zed", ⟨[1], [[1]], "", 3⟩)], []⟩ [1, 2, 3] "newguy")
      = ((false, dupFaceMsg "zed"), ⟨[("zed", ⟨[1], [[1]], "", 3⟩)], []⟩)
    from by simp [register_face, listNames, hc]]

end FaceApp
